import Mathlib

/-!
Verification of the tidal fish-trap simulation core of Callysto-Fish-Traps
(`Notebooks/scripts/scripts.py`): `get_perimeter`,
`get_ratio_of_perimeter_covered`, `run_trap`, `run_trap_harvesting`.

Shallow embedding conventions:
* Python floats are modelled as real numbers (exact arithmetic).
* `numpy.linspace(0, pi, 100)` samples the angles `theta i = i * pi / 99`
  for `i = 0, ..., 99`.
* `math.acos` raises `ValueError: math domain error` outside `[-1, 1]`; this
  is modelled by `Except String` with the error message as payload, and every
  fallible computation propagates such errors monadically (a Python exception
  aborts the call).
* `int(x)` on a float truncates toward zero (`pyInt`).
* The week of measured tide readings is loaded from a CSV resource that is
  not part of the source tree; following the specification it is treated as
  an externally supplied sequence of reals, so the two simulators take the
  tide series as an explicit argument.
* Python lists indexed from the end (`xs[-1]`) inside the hourly loops are
  modelled with `getLastD 0`; every state those loops are started from has a
  nonempty history, so the default is inert there.  The resume step of
  `run_trap_harvesting` reads caller-supplied data (`out_trap[-1]`,
  `in_trap[-1]`, `total_harvested[-1]` and `tide_values[len(in_trap) - 1]`),
  where Python raises `IndexError: list index out of range` on an empty list
  or an out-of-range index; these four reads are modelled as fallible
  lookups returning `Except.error index_error_msg`, in the order Python
  performs them.
-/

open Real List

open scoped Classical

namespace FishTrap

/-- Angle sample `i` of `numpy.linspace(0, np.pi, 100)`: `i * pi / 99`. -/
noncomputable def theta (i : ℕ) : ℝ := i * π / 99

/-- The `y` coordinate of perimeter point `i`: `radius * sin(theta) + delta`
(scripts.py line 153). -/
noncomputable def perimeter_y (radius delta : ℝ) (i : ℕ) : ℝ :=
  radius * Real.sin (theta i) + delta

/-- Embedding of `get_perimeter(radius, height, delta, slope, intercept)`
(scripts.py lines 133-157): the triple of coordinate arrays
`x = radius*cos(theta)`, `y = radius*sin(theta) + delta`,
`z = intercept + height - slope*y` over the 100 angles of
`linspace(0, pi, 100)`. -/
noncomputable def get_perimeter (radius height delta slope intercept : ℝ) :
    List ℝ × List ℝ × List ℝ :=
  ((List.range 100).map fun i => radius * Real.cos (theta i),
   (List.range 100).map fun i => perimeter_y radius delta i,
   (List.range 100).map fun i => intercept + height - slope * perimeter_y radius delta i)

/-- The scan loop of `get_ratio_of_perimeter_covered` (scripts.py lines
111-115): index of the first list entry that is `≤ tide_level`, scanning in
generation order; `none` plays the role of the sentinel `index == -1`. -/
noncomputable def firstIdxLE (tide_level : ℝ) : List ℝ → Option ℕ
  | [] => none
  | z :: zs =>
    if z ≤ tide_level then some 0
    else (firstIdxLE tide_level zs).map (fun n => n + 1)

/-- Message of the `ValueError` raised by `math.acos` outside `[-1, 1]`. -/
def domain_error_msg : String := "math domain error"

/-- Embedding of `get_ratio_of_perimeter_covered(tide_level, perimeter,
radius, delta)` (scripts.py lines 93-131).  Finds the first perimeter point
whose `z` is under water (returning `0` if there is none), computes the chord
length from `(0, radius + delta)` to that point, and converts it through the
law of cosines into an angular fraction of a quarter turn.  `math.acos`
raises a `ValueError` when its argument falls outside `[-1, 1]`, which the
embedding returns as `Except.error domain_error_msg`. -/
noncomputable def get_ratio_of_perimeter_covered (tide_level : ℝ)
    (perimeter : List ℝ × List ℝ × List ℝ) (radius delta : ℝ) : Except String ℝ :=
  let x_values := perimeter.1
  let y_values := perimeter.2.1
  let z_values := perimeter.2.2
  match firstIdxLE tide_level z_values with
  | none => .ok 0
  | some index =>
    let x := x_values.getD index 0
    let y := y_values.getD index 0
    let chord := Real.sqrt (x ^ 2 + (y - radius - delta) ^ 2)
    let r := (2 * radius ^ 2 - chord ^ 2) / (2 * radius ^ 2)
    if r < -1 ∨ 1 < r then .error domain_error_msg
    else .ok (Real.arccos r / (0.5 * π))

/-- Python `int(x)` applied to a float: truncation toward zero. -/
noncomputable def pyInt (x : ℝ) : ℤ := if 0 ≤ x then ⌊x⌋ else ⌈x⌉

/-- Mutable simulation state threaded through the hourly loops: the two
populations `current_caught_fish` / `current_free_fish` and the four history
lists `total_harvested`, `in_trap`, `out_trap`, `catches`. -/
structure SimState where
  caught : ℝ
  free : ℝ
  total : List ℝ
  in_trap : List ℝ
  out_trap : List ℝ
  catches : List ℝ

/-- Hourly loop of `run_trap` (scripts.py lines 295-324).  Each tick computes
the coverage (propagating an acos domain error), moves fish both ways —
`caught_to_free` carries the `height_adjustment` factor — and either records
an unchanged harvest total (open trap) or harvests `floor(caught)` and empties
the trap (closed trap, `coverage == 0`). -/
noncomputable def runTrapAux (cov : ℝ → Except String ℝ)
    (movement_rate perimRatio height_adjustment max_fish : ℝ)
    (constant_population : Bool) : List ℝ → SimState → Except String SimState
  | [], s => .ok s
  | level :: rest, s =>
    match cov level with
    | .error e => .error e
    | .ok coverage =>
      let free_to_caught := s.free * coverage * movement_rate * perimRatio
      let caught_to_free := s.caught * coverage * movement_rate * perimRatio * height_adjustment
      let caught1 := s.caught - caught_to_free + free_to_caught
      let free1 := s.free + caught_to_free - free_to_caught
      if 0 < coverage then
        runTrapAux cov movement_rate perimRatio height_adjustment max_fish constant_population
          rest
          { caught := caught1, free := free1,
            total := s.total ++ [s.total.getLastD 0],
            in_trap := s.in_trap ++ [caught1],
            out_trap := s.out_trap ++ [free1],
            catches := s.catches }
      else
        let selected := ((⌊caught1⌋ : ℤ) : ℝ)
        let free2 := if constant_population then max_fish else free1 + (caught1 - selected)
        runTrapAux cov movement_rate perimRatio height_adjustment max_fish constant_population
          rest
          { caught := 0, free := free2,
            total := s.total ++ [s.total.getLastD 0 + selected],
            in_trap := s.in_trap ++ [0],
            out_trap := s.out_trap ++ [free2],
            catches := if ⌊caught1⌋ ≠ 0 then s.catches ++ [selected] else s.catches }

/-- Embedding of `run_trap(radius, height, slope, delta, constant_population)`
(scripts.py lines 264-326) over an explicit tide series.  Sets up
`movement_rate = 0.025`, `max_fish = 1000`,
`perimeter_ratio = (pi*radius)/(pi*25)`,
`height_adjustment = 1/min(1, height/4)`, the perimeter (default intercept 6),
and runs the hourly loop from `caught = 0`, `free = max_fish`, returning the
four history lists. -/
noncomputable def run_trap (tide_values : List ℝ) (radius height slope delta : ℝ)
    (constant_population : Bool) :
    Except String (List ℝ × List ℝ × List ℝ × List ℝ) :=
  let movement_rate : ℝ := 0.025
  let max_fish : ℝ := 1000
  let perimRatio := (π * radius) / (π * 25)
  let height_adjustment := 1 / min 1 (height / 4)
  let perimeter := get_perimeter radius height delta slope 6
  (runTrapAux (fun level => get_ratio_of_perimeter_covered level perimeter radius 5)
      movement_rate perimRatio height_adjustment max_fish constant_population tide_values
      { caught := 0, free := max_fish, total := [0], in_trap := [0],
        out_trap := [max_fish], catches := [] }).map
    fun s => (s.total, s.in_trap, s.out_trap, s.catches)

/-- Message of the `ValueError` raised by `run_trap_harvesting` when the
selected harvest fails validation (scripts.py lines 218, 221). -/
def harvest_error_msg : String :=
  "selected_harvest must be a positive integer not larger than the number of fish in the trap"

/-- Message of the `IndexError` raised by Python when a list subscript
(`xs[-1]` on an empty list, or `xs[i]` with `i` out of range) fails. -/
def index_error_msg : String := "list index out of range"

/-- Hourly loop of `run_trap_harvesting` (scripts.py lines 246-261).  Unlike
`run_trap`'s loop, its `caught_to_free` flow has no `height_adjustment`
factor, and instead of harvesting at a closure it pauses: when the trap is
closed (`coverage == 0`) with at least one whole caught fish it returns the
histories so far with `completed = false`. -/
noncomputable def runHarvestAux (cov : ℝ → Except String ℝ)
    (movement_rate perimRatio : ℝ) : List ℝ → SimState → Except String (SimState × Bool)
  | [], s => .ok (s, true)
  | level :: rest, s =>
    match cov level with
    | .error e => .error e
    | .ok coverage =>
      if ⌊s.caught⌋ ≠ 0 ∧ coverage = 0 then .ok (s, false)
      else
        let free_to_caught := s.free * coverage * movement_rate * perimRatio
        let caught_to_free := s.caught * coverage * movement_rate * perimRatio
        let caught1 := s.caught - caught_to_free + free_to_caught
        let free1 := s.free + caught_to_free - free_to_caught
        runHarvestAux cov movement_rate perimRatio rest
          { caught := caught1, free := free1,
            total := s.total ++ [s.total.getLastD 0],
            in_trap := s.in_trap ++ [caught1],
            out_trap := s.out_trap ++ [free1],
            catches := s.catches }

/-- Embedding of `run_trap_harvesting(prev_values, selected_harvest, radius,
height, slope, delta, constant_population)` (scripts.py lines 159-261) over an
explicit tide series.  Empty `prev_values` (modelled as `none`) starts from the
initial state without touching `selected_harvest`.  Non-empty `prev_values`
resumes: the current populations are read from the ends of the supplied
histories (`out_trap[-1]`, then `in_trap[-1]` — each an `IndexError` when
empty), `selected_harvest` is coerced with `int(...)` and validated against
the current caught population, recorded, and one closure step (whose
`caught_to_free` flow does use the `height_adjustment`) is applied at the
already-run tide level `tide_values[len(in_trap) - 1]` (an `IndexError` when
out of range, read before the coverage; `total_harvested[-1]` is read after
it) before the loop continues on the remaining tide values with
`completed`'s value reported at the end. -/
noncomputable def run_trap_harvesting (tide_values : List ℝ)
    (prev_values : Option (List ℝ × List ℝ × List ℝ × List ℝ)) (selected_harvest : ℝ)
    (radius height slope delta : ℝ) (constant_population : Bool) :
    Except String ((List ℝ × List ℝ × List ℝ × List ℝ) × Bool) :=
  let movement_rate : ℝ := 0.025
  let max_fish : ℝ := 1000
  let perimRatio := (π * radius) / (π * 25)
  let perimeter := get_perimeter radius height delta slope 6
  let height_adjustment := 1 / min 1 (height / 4)
  let cov := fun level => get_ratio_of_perimeter_covered level perimeter radius 5
  let setup : Except String SimState :=
    match prev_values with
    | none =>
      .ok { caught := 0, free := max_fish, total := [0], in_trap := [0],
            out_trap := [max_fish], catches := [] }
    | some (total_harvested, in_trap, out_trap, catches) =>
      match out_trap.getLast? with
      | none => .error index_error_msg
      | some current_free_fish =>
        match in_trap.getLast? with
        | none => .error index_error_msg
        | some current_caught_fish =>
          let n := pyInt selected_harvest
          if (n : ℝ) > current_caught_fish ∨ n < 0 then .error harvest_error_msg
          else
            match tide_values[in_trap.length - 1]? with
            | none => .error index_error_msg
            | some level =>
              match cov level with
              | .error e => .error e
              | .ok coverage =>
                let free_to_caught :=
                  current_free_fish * coverage * movement_rate * perimRatio
                let caught_to_free :=
                  current_caught_fish * coverage * movement_rate * perimRatio
                    * height_adjustment
                let caught1 := current_caught_fish - caught_to_free + free_to_caught
                let free1 := current_free_fish + caught_to_free - free_to_caught
                let free2 :=
                  if constant_population then max_fish else free1 + (caught1 - (n : ℝ))
                match total_harvested.getLast? with
                | none => .error index_error_msg
                | some last_total =>
                  .ok { caught := 0, free := free2,
                        total := total_harvested ++ [last_total + (n : ℝ)],
                        in_trap := in_trap ++ [0],
                        out_trap := out_trap ++ [free2],
                        catches := catches ++ [(n : ℝ)] }
  setup.bind fun s =>
    (runHarvestAux cov movement_rate perimRatio
        (tide_values.drop (s.in_trap.length - 1)) s).map
      fun p => ((p.1.total, p.1.in_trap, p.1.out_trap, p.1.catches), p.2)

/-! ### Specification predicates

Named propositions for the larger specification statements, so that each can
be stated once and instantiated both generally and at concrete inputs. -/

/-- Perimeter specification: `get_perimeter` yields three coordinate lists of
exactly 100 points sampled at the evenly spaced angles `theta i = i*pi/99`
running from `0` to `pi` inclusive, with `x = radius*cos`, `y = radius*sin +
delta`, `z = intercept + height - slope*y`, and strictly decreasing `x`. -/
noncomputable def PerimeterPointsSpec (radius height delta slope intercept : ℝ) : Prop :=
  (get_perimeter radius height delta slope intercept).1.length = 100 ∧
  (get_perimeter radius height delta slope intercept).2.1.length = 100 ∧
  (get_perimeter radius height delta slope intercept).2.2.length = 100 ∧
  theta 0 = 0 ∧ theta 99 = π ∧ (∀ i : ℕ, theta (i + 1) - theta i = π / 99) ∧
  (∀ i < 100,
    (get_perimeter radius height delta slope intercept).1.getD i 0
      = radius * Real.cos (theta i) ∧
    (get_perimeter radius height delta slope intercept).2.1.getD i 0
      = radius * Real.sin (theta i) + delta ∧
    (get_perimeter radius height delta slope intercept).2.2.getD i 0
      = intercept + height - slope * (radius * Real.sin (theta i) + delta)) ∧
  (∀ i j, i < j → j < 100 →
    (get_perimeter radius height delta slope intercept).1.getD j 0
      < (get_perimeter radius height delta slope intercept).1.getD i 0)

/-- Coverage specification on a matching perimeter: the result is `0` when the
tide is strictly below every `z` value, and otherwise it is
`acos((2 r^2 - L^2)/(2 r^2)) / (pi/2)` for the first (in generation order)
point whose `z` is at most the tide level, a value lying in `[0, 1]`. -/
noncomputable def CoverageValueSpec (radius height delta slope intercept tide : ℝ) : Prop :=
  ((∀ z ∈ (get_perimeter radius height delta slope intercept).2.2, tide < z) →
    get_ratio_of_perimeter_covered tide (get_perimeter radius height delta slope intercept)
      radius delta = .ok 0) ∧
  (¬ (∀ z ∈ (get_perimeter radius height delta slope intercept).2.2, tide < z) →
    ∃ i, firstIdxLE tide (get_perimeter radius height delta slope intercept).2.2 = some i ∧
      (∀ j < i,
        ¬ (get_perimeter radius height delta slope intercept).2.2.getD j 0 ≤ tide) ∧
      (get_perimeter radius height delta slope intercept).2.2.getD i 0 ≤ tide ∧
      ∃ v, get_ratio_of_perimeter_covered tide
          (get_perimeter radius height delta slope intercept) radius delta = .ok v ∧
        v = Real.arccos ((2 * radius ^ 2 -
              Real.sqrt (((get_perimeter radius height delta slope intercept).1.getD i 0) ^ 2 +
                ((get_perimeter radius height delta slope intercept).2.1.getD i 0
                  - radius - delta) ^ 2) ^ 2) /
            (2 * radius ^ 2)) / (0.5 * π) ∧
        0 ≤ v ∧ v ≤ 1)

/-- Monotonicity specification of the cumulative harvest history at the
default `delta = 5` (the matching value for the coverage computation, which
keeps the coverage within `[0, 1]`): both the history produced by `run_trap`
and any successful extension of a monotone history by `run_trap_harvesting`
are monotonically non-decreasing. -/
noncomputable def HarvestMonotoneSpec (tides : List ℝ) (radius height slope : ℝ)
    (cp : Bool) : Prop :=
  (∀ res, run_trap tides radius height slope 5 cp = .ok res →
    res.1.Chain' (· ≤ ·)) ∧
  (∀ prev sh res b, (prev : List ℝ × List ℝ × List ℝ × List ℝ).1.Chain' (· ≤ ·) →
    run_trap_harvesting tides (some prev) sh radius height slope 5 cp = .ok (res, b) →
    res.1.Chain' (· ≤ ·))

/-! ### Basic facts about the scan and the angle samples -/

theorem firstIdxLE_eq_none_iff (t : ℝ) (zs : List ℝ) :
    firstIdxLE t zs = none ↔ ∀ z ∈ zs, ¬ z ≤ t := by
  induction zs with
  | nil => simp [firstIdxLE]
  | cons z zs ih =>
    by_cases h : z ≤ t
    · simp [firstIdxLE, h]
    · simp only [firstIdxLE, if_neg h, Option.map_eq_none', ih, List.mem_cons]
      constructor
      · rintro hall z' (rfl | hz')
        · exact h
        · exact hall z' hz'
      · intro hall z' hz'
        exact hall z' (Or.inr hz')

theorem firstIdxLE_spec (t : ℝ) (zs : List ℝ) (i : ℕ) (h : firstIdxLE t zs = some i) :
    i < zs.length ∧ zs.getD i 0 ≤ t ∧ ∀ j < i, ¬ zs.getD j 0 ≤ t := by
  induction zs generalizing i with
  | nil => simp [firstIdxLE] at h
  | cons z zs ih =>
    by_cases hz : z ≤ t
    · simp only [firstIdxLE, if_pos hz, Option.some.injEq] at h
      subst h
      simpa using hz
    · simp only [firstIdxLE, if_neg hz, Option.map_eq_some'] at h
      obtain ⟨n, hn, rfl⟩ := h
      obtain ⟨h1, h2, h3⟩ := ih n hn
      refine ⟨by simpa using h1, by simpa using h2, ?_⟩
      intro j hj
      cases j with
      | zero => simpa using hz
      | succ j => simpa using h3 j (by omega)

theorem firstIdxLE_exists (t : ℝ) (zs : List ℝ) (j : ℕ) (hj : j < zs.length)
    (h : zs.getD j 0 ≤ t) : ∃ i, i ≤ j ∧ firstIdxLE t zs = some i := by
  induction zs generalizing j with
  | nil => simp at hj
  | cons z zs ih =>
    by_cases hz : z ≤ t
    · exact ⟨0, Nat.zero_le _, by simp [firstIdxLE, hz]⟩
    · cases j with
      | zero => simp only [List.getD_cons_zero] at h; exact absurd h hz
      | succ j =>
        obtain ⟨i, hi, hfi⟩ := ih j (by simpa using hj) (by simpa using h)
        exact ⟨i + 1, by omega, by simp [firstIdxLE, hz, hfi]⟩

theorem getD_map_range (f : ℕ → ℝ) {n i : ℕ} (h : i < n) :
    ((List.range n).map f).getD i 0 = f i := by
  simp [List.getD_eq_getElem?_getD, List.getElem?_range h]

theorem theta_nonneg (i : ℕ) : 0 ≤ theta i := by
  unfold theta
  positivity

theorem theta_le_pi {i : ℕ} (h : i ≤ 99) : theta i ≤ π := by
  unfold theta
  rw [div_le_iff₀ (by norm_num : (0:ℝ) < 99)]
  have hi : (i : ℝ) ≤ 99 := by exact_mod_cast h
  nlinarith [pi_pos]

theorem theta_zero : theta 0 = 0 := by simp [theta]

theorem theta_mono {i j : ℕ} (h : i ≤ j) : theta i ≤ theta j := by
  unfold theta
  gcongr

theorem theta_strict_mono {i j : ℕ} (h : i < j) : theta i < theta j := by
  unfold theta
  gcongr

theorem theta_le_half_pi {i : ℕ} (h : i ≤ 49) : theta i ≤ π / 2 := by
  have h1 : theta i ≤ theta 49 := theta_mono h
  have h2 : theta 49 ≤ π / 2 := by
    unfold theta
    rw [div_le_div_iff₀ (by norm_num : (0:ℝ) < 99) (by norm_num : (0:ℝ) < 2)]
    push_cast
    nlinarith [pi_pos]
  linarith

theorem perimeter_y_symm (r δ : ℝ) {i : ℕ} (hi : i ≤ 99) :
    perimeter_y r δ (99 - i) = perimeter_y r δ i := by
  unfold perimeter_y
  have ht : theta (99 - i) = π - theta i := by
    unfold theta
    rw [Nat.cast_sub hi]
    field_simp
    ring
  rw [ht, Real.sin_pi_sub]

/-! ### Characterization of the coverage computation on a matching perimeter -/

theorem get_ratio_eq_zero_of_none (t : ℝ) (p : List ℝ × List ℝ × List ℝ) (r δ : ℝ)
    (h : firstIdxLE t p.2.2 = none) :
    get_ratio_of_perimeter_covered t p r δ = .ok 0 := by
  simp only [get_ratio_of_perimeter_covered]
  rw [h]

theorem get_ratio_eq_of_firstIdx (r h δ sl ic t : ℝ) (hr : r ≠ 0) (i : ℕ)
    (hfi : firstIdxLE t (get_perimeter r h δ sl ic).2.2 = some i) :
    get_ratio_of_perimeter_covered t (get_perimeter r h δ sl ic) r δ
      = .ok (Real.arccos (Real.sin (theta i)) / (0.5 * π)) := by
  have hi : i < 100 := by
    have := (firstIdxLE_spec t _ i hfi).1
    simpa [get_perimeter] using this
  have hx : (get_perimeter r h δ sl ic).1.getD i 0 = r * Real.cos (theta i) :=
    getD_map_range _ hi
  have hy : (get_perimeter r h δ sl ic).2.1.getD i 0 = perimeter_y r δ i :=
    getD_map_range _ hi
  simp only [get_ratio_of_perimeter_covered]
  rw [hfi]
  simp only [hx, hy]
  have hsq : Real.sqrt ((r * Real.cos (theta i)) ^ 2 + (perimeter_y r δ i - r - δ) ^ 2) ^ 2
      = (r * Real.cos (theta i)) ^ 2 + (perimeter_y r δ i - r - δ) ^ 2 :=
    Real.sq_sqrt (by positivity)
  rw [hsq]
  have hden : (2 : ℝ) * r ^ 2 ≠ 0 := mul_ne_zero two_ne_zero (pow_ne_zero 2 hr)
  have hratio :
      (2 * r ^ 2 - ((r * Real.cos (theta i)) ^ 2 + (perimeter_y r δ i - r - δ) ^ 2))
          / (2 * r ^ 2) = Real.sin (theta i) := by
    rw [div_eq_iff hden]
    unfold perimeter_y
    have hs := Real.sin_sq_add_cos_sq (theta i)
    nlinarith [hs]
  rw [hratio, if_neg]
  push_neg
  exact ⟨Real.neg_one_le_sin _, Real.sin_le_one _⟩

theorem get_ratio_matched_ok (r h δ sl ic t : ℝ) (hr : r ≠ 0) :
    ∃ c, get_ratio_of_perimeter_covered t (get_perimeter r h δ sl ic) r δ = .ok c
      ∧ 0 ≤ c ∧ c ≤ 1 := by
  cases hfi : firstIdxLE t (get_perimeter r h δ sl ic).2.2 with
  | none => exact ⟨0, get_ratio_eq_zero_of_none t _ r δ hfi, le_refl 0, zero_le_one⟩
  | some i =>
    have hi : i < 100 := by
      have := (firstIdxLE_spec t _ i hfi).1
      simpa [get_perimeter] using this
    refine ⟨_, get_ratio_eq_of_firstIdx r h δ sl ic t hr i hfi, ?_, ?_⟩
    · exact div_nonneg (Real.arccos_nonneg _) (by positivity)
    · rw [div_le_one (by positivity)]
      have hb : Real.arccos (Real.sin (theta i)) ≤ π / 2 :=
        Real.arccos_le_pi_div_two.mpr
          (Real.sin_nonneg_of_nonneg_of_le_pi (theta_nonneg i) (theta_le_pi (by omega)))
      linarith

theorem firstIdx_le_49 (r h δ sl ic t : ℝ) (i : ℕ)
    (hfi : firstIdxLE t (get_perimeter r h δ sl ic).2.2 = some i) : i ≤ 49 := by
  obtain ⟨hlen, hpred, hmin⟩ := firstIdxLE_spec t _ i hfi
  have hi : i < 100 := by simpa [get_perimeter] using hlen
  by_contra hgt
  push_neg at hgt
  have hj : 99 - i < i := by omega
  apply hmin (99 - i) hj
  have h1 : (get_perimeter r h δ sl ic).2.2.getD (99 - i) 0
      = ic + h - sl * perimeter_y r δ (99 - i) := getD_map_range _ (by omega)
  have h2 : (get_perimeter r h δ sl ic).2.2.getD i 0
      = ic + h - sl * perimeter_y r δ i := getD_map_range _ hi
  rw [h1, perimeter_y_symm r δ (show i ≤ 99 by omega), ← h2]
  exact hpred

theorem cov_one (r h δ sl ic t : ℝ) (hr : r ≠ 0) (hz : ic + h - sl * δ ≤ t) :
    get_ratio_of_perimeter_covered t (get_perimeter r h δ sl ic) r δ = .ok 1 := by
  have hy0 : perimeter_y r δ 0 = δ := by
    simp [perimeter_y, theta_zero]
  have hz0 : (get_perimeter r h δ sl ic).2.2.getD 0 0 ≤ t := by
    have : (get_perimeter r h δ sl ic).2.2.getD 0 0 = ic + h - sl * perimeter_y r δ 0 :=
      getD_map_range _ (by norm_num)
    rw [this, hy0]
    exact hz
  obtain ⟨i, hi0, hfi⟩ := firstIdxLE_exists t _ 0 (by simp [get_perimeter]) hz0
  have hieq : i = 0 := Nat.le_zero.mp hi0
  subst hieq
  rw [get_ratio_eq_of_firstIdx r h δ sl ic t hr 0 hfi, theta_zero, Real.sin_zero,
    Real.arccos_zero]
  norm_num
  rw [div_eq_one_iff_eq (by positivity)]
  ring

theorem cov_zero (r h δ sl ic t : ℝ) (hr : 0 ≤ r) (hsl : 0 ≤ sl)
    (ht : t < ic + h - sl * (r + δ)) :
    get_ratio_of_perimeter_covered t (get_perimeter r h δ sl ic) r δ = .ok 0 := by
  apply get_ratio_eq_zero_of_none
  rw [firstIdxLE_eq_none_iff]
  intro z hz
  simp only [get_perimeter, List.mem_map, List.mem_range] at hz
  obtain ⟨i, hi, rfl⟩ := hz
  have hsin : Real.sin (theta i) ≤ 1 := Real.sin_le_one _
  have hb : sl * (r * Real.sin (theta i) + δ) ≤ sl * (r + δ) := by
    apply mul_le_mul_of_nonneg_left ?_ hsl
    nlinarith
  simp only [not_le, perimeter_y]
  linarith

/-! ### Single-step unfolding lemmas for the two hourly loops -/

theorem runTrapAux_nil (cov : ℝ → Except String ℝ) (mr pr ha mf : ℝ) (cp : Bool)
    (s : SimState) : runTrapAux cov mr pr ha mf cp [] s = .ok s := rfl

theorem runTrapAux_step_pos (cov : ℝ → Except String ℝ) (mr pr ha mf : ℝ) (cp : Bool)
    (t : ℝ) (rest : List ℝ) (s s' : SimState) (c : ℝ)
    (hc : cov t = .ok c) (hpos : 0 < c)
    (h1 : s'.caught = s.caught - s.caught * c * mr * pr * ha + s.free * c * mr * pr)
    (h2 : s'.free = s.free + s.caught * c * mr * pr * ha - s.free * c * mr * pr)
    (h3 : s'.total = s.total ++ [s.total.getLastD 0])
    (h4 : s'.in_trap
      = s.in_trap ++ [s.caught - s.caught * c * mr * pr * ha + s.free * c * mr * pr])
    (h5 : s'.out_trap
      = s.out_trap ++ [s.free + s.caught * c * mr * pr * ha - s.free * c * mr * pr])
    (h6 : s'.catches = s.catches) :
    runTrapAux cov mr pr ha mf cp (t :: rest) s = runTrapAux cov mr pr ha mf cp rest s' := by
  obtain ⟨sc, sf, st, si, so, sca⟩ := s'
  simp only at h1 h2 h3 h4 h5 h6
  subst h1 h2 h3 h4 h5 h6
  simp only [runTrapAux, hc]
  rw [if_pos hpos]

theorem runTrapAux_step_closed (cov : ℝ → Except String ℝ) (mr pr ha mf : ℝ) (cp : Bool)
    (t : ℝ) (rest : List ℝ) (s s' : SimState) (c c1 f1 : ℝ) (k : ℤ)
    (hc : cov t = .ok c) (hneg : ¬ 0 < c)
    (hc1 : c1 = s.caught - s.caught * c * mr * pr * ha + s.free * c * mr * pr)
    (hf1 : f1 = s.free + s.caught * c * mr * pr * ha - s.free * c * mr * pr)
    (hk : ⌊c1⌋ = k)
    (h1 : s'.caught = 0)
    (h2 : s'.free = if cp then mf else f1 + (c1 - (k : ℝ)))
    (h3 : s'.total = s.total ++ [s.total.getLastD 0 + (k : ℝ)])
    (h4 : s'.in_trap = s.in_trap ++ [0])
    (h5 : s'.out_trap = s.out_trap ++ [if cp then mf else f1 + (c1 - (k : ℝ))])
    (h6 : s'.catches = if k ≠ 0 then s.catches ++ [(k : ℝ)] else s.catches) :
    runTrapAux cov mr pr ha mf cp (t :: rest) s = runTrapAux cov mr pr ha mf cp rest s' := by
  subst hc1 hf1 hk
  obtain ⟨sc, sf, st, si, so, sca⟩ := s'
  simp only at h1 h2 h3 h4 h5 h6
  subst h1 h2 h3 h4 h5 h6
  simp only [runTrapAux, hc]
  rw [if_neg hneg]

theorem runHarvestAux_nil (cov : ℝ → Except String ℝ) (mr pr : ℝ) (s : SimState) :
    runHarvestAux cov mr pr [] s = .ok (s, true) := rfl

theorem runHarvestAux_step (cov : ℝ → Except String ℝ) (mr pr : ℝ)
    (t : ℝ) (rest : List ℝ) (s s' : SimState) (c : ℝ)
    (hc : cov t = .ok c) (hcond : ¬ (⌊s.caught⌋ ≠ 0 ∧ c = 0))
    (h1 : s'.caught = s.caught - s.caught * c * mr * pr + s.free * c * mr * pr)
    (h2 : s'.free = s.free + s.caught * c * mr * pr - s.free * c * mr * pr)
    (h3 : s'.total = s.total ++ [s.total.getLastD 0])
    (h4 : s'.in_trap = s.in_trap ++ [s.caught - s.caught * c * mr * pr + s.free * c * mr * pr])
    (h5 : s'.out_trap = s.out_trap ++ [s.free + s.caught * c * mr * pr - s.free * c * mr * pr])
    (h6 : s'.catches = s.catches) :
    runHarvestAux cov mr pr (t :: rest) s = runHarvestAux cov mr pr rest s' := by
  obtain ⟨sc, sf, st, si, so, sca⟩ := s'
  simp only at h1 h2 h3 h4 h5 h6
  subst h1 h2 h3 h4 h5 h6
  simp only [runHarvestAux, hc]
  rw [if_neg hcond]

theorem runHarvestAux_pause (cov : ℝ → Except String ℝ) (mr pr : ℝ)
    (t : ℝ) (rest : List ℝ) (s : SimState) (c : ℝ)
    (hc : cov t = .ok c) (hfl : ⌊s.caught⌋ ≠ 0) (hcz : c = 0) :
    runHarvestAux cov mr pr (t :: rest) s = .ok (s, false) := by
  simp only [runHarvestAux, hc]
  rw [if_pos ⟨hfl, hcz⟩]

/-! ### Chain' helper for the growing harvest-total histories -/

theorem chain_le_append_last (l : List ℝ) (a : ℝ) (hl : l.Chain' (· ≤ ·))
    (ha : l.getLastD 0 ≤ a) : (l ++ [a]).Chain' (· ≤ ·) := by
  rw [List.chain'_append]
  refine ⟨hl, List.chain'_singleton a, ?_⟩
  intro x hx y hy
  simp only [List.head?_cons, Option.mem_def, Option.some.injEq] at hy
  subst hy
  rw [Option.mem_def] at hx
  have hx' : l.getLastD 0 = x := by
    rw [List.getLastD_eq_getLast?, hx]
    rfl
  rw [← hx']
  exact ha

/-! ### Unfolding the two entry points -/

theorem run_trap_unfold (tides : List ℝ) (r h sl δ : ℝ) (cp : Bool) :
    run_trap tides r h sl δ cp
      = (runTrapAux (fun level => get_ratio_of_perimeter_covered level
            (get_perimeter r h δ sl 6) r 5) 0.025 ((π * r) / (π * 25))
          (1 / min 1 (h / 4)) 1000 cp tides
          ⟨0, 1000, [0], [0], [1000], []⟩).map
        (fun s => (s.total, s.in_trap, s.out_trap, s.catches)) := rfl

theorem run_trap_harvesting_none (tides : List ℝ) (sh r h sl δ : ℝ) (cp : Bool) :
    run_trap_harvesting tides none sh r h sl δ cp
      = (runHarvestAux (fun level => get_ratio_of_perimeter_covered level
            (get_perimeter r h δ sl 6) r 5) 0.025 ((π * r) / (π * 25)) tides
          ⟨0, 1000, [0], [0], [1000], []⟩).map
        (fun p => ((p.1.total, p.1.in_trap, p.1.out_trap, p.1.catches), p.2)) := rfl

theorem run_trap_harvesting_err_out (tides : List ℝ) (total in_t out_t cs : List ℝ)
    (sh r h sl δ : ℝ) (cp : Bool) (hout : out_t.getLast? = none) :
    run_trap_harvesting tides (some (total, in_t, out_t, cs)) sh r h sl δ cp
      = .error index_error_msg := by
  simp only [run_trap_harvesting, hout]
  rfl

theorem run_trap_harvesting_err_in (tides : List ℝ) (total in_t out_t cs : List ℝ)
    (sh r h sl δ cf : ℝ) (cp : Bool)
    (hout : out_t.getLast? = some cf) (hin : in_t.getLast? = none) :
    run_trap_harvesting tides (some (total, in_t, out_t, cs)) sh r h sl δ cp
      = .error index_error_msg := by
  simp only [run_trap_harvesting, hout, hin]
  rfl

theorem run_trap_harvesting_some_err (tides : List ℝ) (total in_t out_t cs : List ℝ)
    (sh r h sl δ cf cc : ℝ) (cp : Bool)
    (hout : out_t.getLast? = some cf) (hin : in_t.getLast? = some cc)
    (hval : (pyInt sh : ℝ) > cc ∨ pyInt sh < 0) :
    run_trap_harvesting tides (some (total, in_t, out_t, cs)) sh r h sl δ cp
      = .error harvest_error_msg := by
  simp only [run_trap_harvesting, hout, hin]
  rw [if_pos hval]
  rfl

theorem run_trap_harvesting_err_tide (tides : List ℝ) (total in_t out_t cs : List ℝ)
    (sh r h sl δ cf cc : ℝ) (cp : Bool)
    (hout : out_t.getLast? = some cf) (hin : in_t.getLast? = some cc)
    (hval : ¬ ((pyInt sh : ℝ) > cc ∨ pyInt sh < 0))
    (htide : tides[in_t.length - 1]? = none) :
    run_trap_harvesting tides (some (total, in_t, out_t, cs)) sh r h sl δ cp
      = .error index_error_msg := by
  simp only [run_trap_harvesting, hout, hin, htide]
  rw [if_neg hval]
  rfl

theorem run_trap_harvesting_err_total (tides : List ℝ) (total in_t out_t cs : List ℝ)
    (sh r h sl δ cf cc lv c : ℝ) (cp : Bool)
    (hout : out_t.getLast? = some cf) (hin : in_t.getLast? = some cc)
    (hval : ¬ ((pyInt sh : ℝ) > cc ∨ pyInt sh < 0))
    (htide : tides[in_t.length - 1]? = some lv)
    (hc : get_ratio_of_perimeter_covered lv (get_perimeter r h δ sl 6) r 5 = .ok c)
    (htot : total.getLast? = none) :
    run_trap_harvesting tides (some (total, in_t, out_t, cs)) sh r h sl δ cp
      = .error index_error_msg := by
  simp only [run_trap_harvesting, hout, hin, htide, hc, htot]
  rw [if_neg hval]
  rfl

theorem run_trap_harvesting_some_ok (tides : List ℝ) (total in_t out_t cs : List ℝ)
    (sh r h sl δ : ℝ) (cp : Bool) (cf cc lv lt c f2 : ℝ) (s' : SimState)
    (hout : out_t.getLast? = some cf) (hin : in_t.getLast? = some cc)
    (hval : ¬ ((pyInt sh : ℝ) > cc ∨ pyInt sh < 0))
    (htide : tides[in_t.length - 1]? = some lv)
    (hc : get_ratio_of_perimeter_covered lv (get_perimeter r h δ sl 6) r 5 = .ok c)
    (htot : total.getLast? = some lt)
    (hf2 : f2 = if cp then 1000 else
      (cf + cc * c * 0.025 * ((π * r) / (π * 25)) * (1 / min 1 (h / 4))
          - cf * c * 0.025 * ((π * r) / (π * 25)))
        + ((cc - cc * c * 0.025 * ((π * r) / (π * 25)) * (1 / min 1 (h / 4))
            + cf * c * 0.025 * ((π * r) / (π * 25))) - (pyInt sh : ℝ)))
    (h1 : s'.caught = 0)
    (h2 : s'.free = f2)
    (h3 : s'.total = total ++ [lt + (pyInt sh : ℝ)])
    (h4 : s'.in_trap = in_t ++ [0])
    (h5 : s'.out_trap = out_t ++ [f2])
    (h6 : s'.catches = cs ++ [(pyInt sh : ℝ)]) :
    run_trap_harvesting tides (some (total, in_t, out_t, cs)) sh r h sl δ cp
      = (runHarvestAux (fun level => get_ratio_of_perimeter_covered level
            (get_perimeter r h δ sl 6) r 5) 0.025 ((π * r) / (π * 25))
          (tides.drop ((in_t ++ [0]).length - 1)) s').map
        (fun p => ((p.1.total, p.1.in_trap, p.1.out_trap, p.1.catches), p.2)) := by
  subst hf2
  obtain ⟨sc, sf, st, si, so, sca⟩ := s'
  simp only at h1 h2 h3 h4 h5 h6
  subst h1 h2 h3 h4 h5 h6
  simp only [run_trap_harvesting, hout, hin, htide, hc, htot]
  rw [if_neg hval]
  rfl

/-! ### Shared computation: the chord ratio on a matching perimeter is the sine -/

theorem matched_chord_ratio (r h δ sl ic : ℝ) (hr : r ≠ 0) {i : ℕ} (hi : i < 100) :
    (2 * r ^ 2 - Real.sqrt (((get_perimeter r h δ sl ic).1.getD i 0) ^ 2 +
        ((get_perimeter r h δ sl ic).2.1.getD i 0 - r - δ) ^ 2) ^ 2) / (2 * r ^ 2)
      = Real.sin (theta i) := by
  have hx : (get_perimeter r h δ sl ic).1.getD i 0 = r * Real.cos (theta i) :=
    getD_map_range _ hi
  have hy : (get_perimeter r h δ sl ic).2.1.getD i 0 = perimeter_y r δ i :=
    getD_map_range _ hi
  rw [hx, hy]
  rw [Real.sq_sqrt (by positivity)]
  rw [div_eq_iff (mul_ne_zero two_ne_zero (pow_ne_zero 2 hr))]
  unfold perimeter_y
  nlinarith [Real.sin_sq_add_cos_sq (theta i)]

/-! ### Claim theorems -/

/-- C1: for every hourly tick in the exchanging state (`coverage > 0`), the
exchange update `caught += freeToCaught - caughtToFree`,
`free += caughtToFree - freeToCaught` leaves `caught + free` unchanged in
exact arithmetic, in both `run_trap`'s loop and `run_trap_harvesting`'s loop,
for every starting state and all coverage, movement-rate, perimeter-ratio and
height-adjustment values. -/
theorem C1_exchange_conserves_population (cov : ℝ → Except String ℝ)
    (mr pr ha mf : ℝ) (cp : Bool) (t c : ℝ) (s s1 : SimState) (p : SimState × Bool)
    (hc : cov t = .ok c) (hpos : 0 < c)
    (hrun : runTrapAux cov mr pr ha mf cp [t] s = .ok s1)
    (hrunH : runHarvestAux cov mr pr [t] s = .ok p) :
    s1.caught + s1.free = s.caught + s.free
      ∧ p.1.caught + p.1.free = s.caught + s.free := by
  constructor
  · rw [runTrapAux_step_pos cov mr pr ha mf cp t [] s
        ⟨s.caught - s.caught * c * mr * pr * ha + s.free * c * mr * pr,
         s.free + s.caught * c * mr * pr * ha - s.free * c * mr * pr,
         s.total ++ [s.total.getLastD 0],
         s.in_trap ++ [s.caught - s.caught * c * mr * pr * ha + s.free * c * mr * pr],
         s.out_trap ++ [s.free + s.caught * c * mr * pr * ha - s.free * c * mr * pr],
         s.catches⟩ c hc hpos rfl rfl rfl rfl rfl rfl, runTrapAux_nil] at hrun
    injection hrun with h
    subst h
    dsimp only
    ring
  · rw [runHarvestAux_step cov mr pr t [] s
        ⟨s.caught - s.caught * c * mr * pr + s.free * c * mr * pr,
         s.free + s.caught * c * mr * pr - s.free * c * mr * pr,
         s.total ++ [s.total.getLastD 0],
         s.in_trap ++ [s.caught - s.caught * c * mr * pr + s.free * c * mr * pr],
         s.out_trap ++ [s.free + s.caught * c * mr * pr - s.free * c * mr * pr],
         s.catches⟩ c hc (by rintro ⟨-, rfl⟩; exact lt_irrefl 0 hpos)
        rfl rfl rfl rfl rfl rfl, runHarvestAux_nil] at hrunH
    injection hrunH with h
    subst h
    dsimp only
    ring

/-- Witness for C1: a concrete exchanging tick of both loops, with all
hypotheses discharged. -/
theorem C1_exchange_conserves_population_witness :
    (0:ℝ) < 1 ∧
    runTrapAux (fun _ => .ok 1) 1 1 1 0 true [0] ⟨1, 1, [0], [0], [1], []⟩
      = .ok ⟨1, 1, [0, 0], [0, 1], [1, 1], []⟩ ∧
    runHarvestAux (fun _ => .ok 1) 1 1 [0] ⟨1, 1, [0], [0], [1], []⟩
      = .ok (⟨1, 1, [0, 0], [0, 1], [1, 1], []⟩, true) ∧
    ((1:ℝ) + 1 = 1 + 1 ∧ (1:ℝ) + 1 = 1 + 1) := by
  have hrun : runTrapAux (fun _ => .ok 1) 1 1 1 0 true [0] ⟨1, 1, [0], [0], [1], []⟩
      = .ok ⟨1, 1, [0, 0], [0, 1], [1, 1], []⟩ := by
    rw [runTrapAux_step_pos _ 1 1 1 0 true 0 [] ⟨1, 1, [0], [0], [1], []⟩
        ⟨1, 1, [0, 0], [0, 1], [1, 1], []⟩ 1 rfl one_pos (by norm_num) (by norm_num)
        (by simp) (by norm_num) (by norm_num) rfl, runTrapAux_nil]
  have hrunH : runHarvestAux (fun _ => .ok 1) 1 1 [0] ⟨1, 1, [0], [0], [1], []⟩
      = .ok (⟨1, 1, [0, 0], [0, 1], [1, 1], []⟩, true) := by
    rw [runHarvestAux_step _ 1 1 0 [] ⟨1, 1, [0], [0], [1], []⟩
        ⟨1, 1, [0, 0], [0, 1], [1, 1], []⟩ 1 rfl (by rintro ⟨-, h2⟩; norm_num at h2)
        (by norm_num) (by norm_num) (by simp) (by norm_num) (by norm_num) rfl,
      runHarvestAux_nil]
  exact ⟨one_pos, hrun, hrunH,
    C1_exchange_conserves_population (fun _ => .ok 1) 1 1 1 0 true 0 1
      ⟨1, 1, [0], [0], [1], []⟩ ⟨1, 1, [0, 0], [0, 1], [1, 1], []⟩
      (⟨1, 1, [0, 0], [0, 1], [1, 1], []⟩, true) rfl one_pos hrun hrunH⟩

/-- C4 (amended): in an exchanging tick, `run_trap`'s loop moves
`caught * coverage * movementRate * perimeterRatio * heightAdjustment` out of
the trap and `free * coverage * movementRate * perimeterRatio` into it, while
`run_trap_harvesting`'s hourly loop omits the height adjustment from the
caught-to-free flow: it moves only `caught * coverage * movementRate *
perimeterRatio`. -/
theorem C4_amended_flows (cov : ℝ → Except String ℝ) (mr pr ha mf : ℝ) (cp : Bool)
    (t c : ℝ) (s : SimState) (hc : cov t = .ok c) (hpos : 0 < c) :
    (runTrapAux cov mr pr ha mf cp [t] s).map (fun s1 => (s1.caught, s1.free))
      = .ok (s.caught - s.caught * c * mr * pr * ha + s.free * c * mr * pr,
             s.free + s.caught * c * mr * pr * ha - s.free * c * mr * pr)
  ∧ (runHarvestAux cov mr pr [t] s).map (fun p => (p.1.caught, p.1.free))
      = .ok (s.caught - s.caught * c * mr * pr + s.free * c * mr * pr,
             s.free + s.caught * c * mr * pr - s.free * c * mr * pr) := by
  constructor
  · rw [runTrapAux_step_pos cov mr pr ha mf cp t [] s
        ⟨s.caught - s.caught * c * mr * pr * ha + s.free * c * mr * pr,
         s.free + s.caught * c * mr * pr * ha - s.free * c * mr * pr,
         s.total ++ [s.total.getLastD 0],
         s.in_trap ++ [s.caught - s.caught * c * mr * pr * ha + s.free * c * mr * pr],
         s.out_trap ++ [s.free + s.caught * c * mr * pr * ha - s.free * c * mr * pr],
         s.catches⟩ c hc hpos rfl rfl rfl rfl rfl rfl, runTrapAux_nil]
    rfl
  · rw [runHarvestAux_step cov mr pr t [] s
        ⟨s.caught - s.caught * c * mr * pr + s.free * c * mr * pr,
         s.free + s.caught * c * mr * pr - s.free * c * mr * pr,
         s.total ++ [s.total.getLastD 0],
         s.in_trap ++ [s.caught - s.caught * c * mr * pr + s.free * c * mr * pr],
         s.out_trap ++ [s.free + s.caught * c * mr * pr - s.free * c * mr * pr],
         s.catches⟩ c hc (by rintro ⟨-, rfl⟩; exact lt_irrefl 0 hpos)
        rfl rfl rfl rfl rfl rfl, runHarvestAux_nil]
    rfl

/-- Witness for C4 (amended) at a concrete exchanging tick. -/
theorem C4_amended_flows_witness :
    (0:ℝ) < 1 ∧
    ((runTrapAux (fun _ => .ok 1) 1 1 2 0 true [0] ⟨1, 0, [0], [0], [0], []⟩).map
        (fun s1 => (s1.caught, s1.free))
      = .ok ((1:ℝ) - 1 * 1 * 1 * 1 * 2 + 0 * 1 * 1 * 1,
             (0:ℝ) + 1 * 1 * 1 * 1 * 2 - 0 * 1 * 1 * 1)
    ∧ (runHarvestAux (fun _ => .ok 1) 1 1 [0] ⟨1, 0, [0], [0], [0], []⟩).map
        (fun p => (p.1.caught, p.1.free))
      = .ok ((1:ℝ) - 1 * 1 * 1 * 1 + 0 * 1 * 1 * 1,
             (0:ℝ) + 1 * 1 * 1 * 1 - 0 * 1 * 1 * 1)) :=
  ⟨one_pos,
    C4_amended_flows (fun _ => .ok 1) 1 1 2 0 true 0 1 ⟨1, 0, [0], [0], [0], []⟩
      rfl one_pos⟩

/-- C4 (counterexample): running the resumable simulator for two exchanging
hours at the default configuration (`height = 2`, so the height adjustment is
`2`) puts `48.75` fish in the trap after hour two, not the `48.125` that the
claimed height-adjusted caught-to-free flow would produce. -/
theorem C4_counterexample :
    (run_trap_harvesting [100, 100] none 0 25 2 0.17 5 true).map (fun rb => rb.1.2.1)
      = .ok [0, 25, 48.75]
    ∧ (48.75 : ℝ) ≠ 25 - 25 * 1 * 0.025 * 1 * 2 + 975 * 1 * 0.025 * 1 := by
  constructor
  · rw [run_trap_harvesting_none]
    rw [show (π * 25) / (π * 25) = (1:ℝ) from div_self (ne_of_gt (by positivity))]
    have hc1 : get_ratio_of_perimeter_covered 100 (get_perimeter 25 2 5 0.17 6) 25 5
        = .ok 1 :=
      cov_one 25 2 5 0.17 6 100 (by norm_num) (by norm_num)
    rw [runHarvestAux_step _ 0.025 1 100 [100] ⟨0, 1000, [0], [0], [1000], []⟩
        ⟨25, 975, [0, 0], [0, 25], [1000, 975], []⟩ 1 hc1 (by simp)
        (by norm_num) (by norm_num) (by simp) (by norm_num) (by norm_num) rfl]
    rw [runHarvestAux_step _ 0.025 1 100 [] ⟨25, 975, [0, 0], [0, 25], [1000, 975], []⟩
        ⟨48.75, 951.25, [0, 0, 0], [0, 25, 48.75], [1000, 975, 951.25], []⟩ 1 hc1
        (by rintro ⟨-, h2⟩; norm_num at h2)
        (by norm_num) (by norm_num) (by simp) (by norm_num) (by norm_num) rfl,
      runHarvestAux_nil]
    rfl
  · norm_num

/-- C5: for every `radius > 0` and all real `height`, `delta`, `slope`,
`intercept`, the perimeter consists of exactly 100 points at evenly spaced
angles from `0` to `pi` inclusive, with `x = radius*cos` strictly decreasing,
`y = radius*sin + delta` and `z = intercept + height - slope*y`. -/
theorem C5_perimeter_points (radius height delta slope intercept : ℝ)
    (hr : 0 < radius) : PerimeterPointsSpec radius height delta slope intercept := by
  unfold PerimeterPointsSpec
  refine ⟨by simp [get_perimeter], by simp [get_perimeter], by simp [get_perimeter],
    theta_zero, ?_, ?_, ?_, ?_⟩
  · unfold theta
    push_cast
    field_simp
  · intro i
    unfold theta
    push_cast
    ring
  · intro i hi
    refine ⟨getD_map_range _ hi, ?_, ?_⟩
    · have hy : (get_perimeter radius height delta slope intercept).2.1.getD i 0
          = perimeter_y radius delta i := getD_map_range _ hi
      rw [hy]
      rfl
    · have hz : (get_perimeter radius height delta slope intercept).2.2.getD i 0
          = intercept + height - slope * perimeter_y radius delta i := getD_map_range _ hi
      rw [hz]
      rfl
  · intro i j hij hj
    have ha : (get_perimeter radius height delta slope intercept).1.getD j 0
        = radius * Real.cos (theta j) := getD_map_range _ hj
    have hb : (get_perimeter radius height delta slope intercept).1.getD i 0
        = radius * Real.cos (theta i) := getD_map_range _ (hij.trans hj)
    rw [ha, hb]
    have hcos : Real.cos (theta j) < Real.cos (theta i) :=
      Real.strictAntiOn_cos ⟨theta_nonneg i, theta_le_pi (by omega)⟩
        ⟨theta_nonneg j, theta_le_pi (by omega)⟩ (theta_strict_mono hij)
    exact mul_lt_mul_of_pos_left hcos hr

/-- Witness for C5 at `radius = 1`. -/
theorem C5_perimeter_points_witness :
    (0:ℝ) < 1 ∧ PerimeterPointsSpec 1 0 0 0 0 :=
  ⟨by norm_num, C5_perimeter_points 1 0 0 0 0 (by norm_num)⟩

/-- C2 (evaluation at the failing input): the coverage computation does not
clamp the arc-cosine argument.  With the perimeter built for `delta = 1000`
but coverage queried with the caller's default `delta = 5` — exactly
`run_trap`'s call pattern for a user-chosen `delta = 1000` — the ratio falls
below `-1` and `math.acos` raises `ValueError: math domain error` instead of
returning a clamped value. -/
theorem C2_no_clamp_domain_error :
    get_ratio_of_perimeter_covered 100 (get_perimeter 25 2 1000 0.17 6) 25 5
      = .error domain_error_msg := by
  have hz0 : (get_perimeter 25 2 1000 0.17 6).2.2.getD 0 0 ≤ 100 := by
    have h : (get_perimeter 25 2 1000 0.17 6).2.2.getD 0 0
        = 6 + 2 - 0.17 * perimeter_y 25 1000 0 := getD_map_range _ (by norm_num)
    rw [h]
    simp only [perimeter_y, theta_zero, Real.sin_zero]
    norm_num
  obtain ⟨i, hi0, hfi⟩ := firstIdxLE_exists 100 _ 0 (by simp [get_perimeter]) hz0
  have hieq : i = 0 := Nat.le_zero.mp hi0
  subst hieq
  have hx : (get_perimeter 25 2 1000 0.17 6).1.getD 0 0 = 25 * Real.cos (theta 0) :=
    getD_map_range _ (by norm_num)
  have hy : (get_perimeter 25 2 1000 0.17 6).2.1.getD 0 0 = perimeter_y 25 1000 0 :=
    getD_map_range _ (by norm_num)
  simp only [get_ratio_of_perimeter_covered]
  rw [hfi]
  simp only [hx, hy, theta_zero, Real.cos_zero, perimeter_y, Real.sin_zero]
  rw [show (25 : ℝ) * 1 = 25 by norm_num, show (25 : ℝ) * 0 + 1000 = 1000 by norm_num]
  rw [Real.sq_sqrt (by norm_num : (0:ℝ) ≤ 25 ^ 2 + (1000 - 25 - 5) ^ 2)]
  rw [if_pos]
  left
  norm_num

/-- C6: on a perimeter generated with matching `radius` and `delta`, coverage
is `0` when the tide is strictly below every `z` value, and otherwise equals
`acos((2 r^2 - L^2)/(2 r^2)) / (pi/2)` at the first submerged point in
generation order, a value in `[0, 1]`. -/
theorem C6_coverage_value (radius height delta slope intercept tide : ℝ)
    (hr : 0 < radius) :
    CoverageValueSpec radius height delta slope intercept tide := by
  unfold CoverageValueSpec
  constructor
  · intro hall
    apply get_ratio_eq_zero_of_none
    rw [firstIdxLE_eq_none_iff]
    intro z hz
    exact not_le.mpr (hall z hz)
  · intro hnall
    cases hfi : firstIdxLE tide (get_perimeter radius height delta slope intercept).2.2 with
    | none =>
      exfalso
      apply hnall
      intro z hz
      exact lt_of_not_le ((firstIdxLE_eq_none_iff _ _).mp hfi z hz)
    | some i =>
      obtain ⟨hlen, hpred, hmin⟩ := firstIdxLE_spec _ _ i hfi
      have hi : i < 100 := by simpa [get_perimeter] using hlen
      refine ⟨i, rfl, hmin, hpred, _,
        get_ratio_eq_of_firstIdx radius height delta slope intercept tide
          (ne_of_gt hr) i hfi, ?_, ?_, ?_⟩
      · rw [matched_chord_ratio radius height delta slope intercept (ne_of_gt hr) hi]
      · exact div_nonneg (Real.arccos_nonneg _) (by positivity)
      · rw [div_le_one (by positivity)]
        have hb : Real.arccos (Real.sin (theta i)) ≤ π / 2 :=
          Real.arccos_le_pi_div_two.mpr
            (Real.sin_nonneg_of_nonneg_of_le_pi (theta_nonneg i) (theta_le_pi (by omega)))
        linarith

/-- Witness for C6 at `radius = 1`, the remaining parameters `0`. -/
theorem C6_coverage_value_witness :
    (0:ℝ) < 1 ∧ CoverageValueSpec 1 0 0 0 0 0 :=
  ⟨by norm_num, C6_coverage_value 1 0 0 0 0 0 (by norm_num)⟩

/-- C7: on a perimeter generated with matching `radius` and `delta`, the
coverage is monotonically non-decreasing in the tide level. -/
theorem C7_coverage_monotone (radius height delta slope intercept t1 t2 : ℝ)
    (hr : 0 < radius) (ht : t1 ≤ t2) :
    ∃ v1 v2,
      get_ratio_of_perimeter_covered t1 (get_perimeter radius height delta slope intercept)
        radius delta = .ok v1 ∧
      get_ratio_of_perimeter_covered t2 (get_perimeter radius height delta slope intercept)
        radius delta = .ok v2 ∧
      v1 ≤ v2 := by
  cases hfi1 : firstIdxLE t1 (get_perimeter radius height delta slope intercept).2.2 with
  | none =>
    obtain ⟨v2, hv2, hv2n, -⟩ :=
      get_ratio_matched_ok radius height delta slope intercept t2 (ne_of_gt hr)
    exact ⟨0, v2, get_ratio_eq_zero_of_none _ _ _ _ hfi1, hv2, hv2n⟩
  | some i1 =>
    obtain ⟨hlen1, hpred1, hmin1⟩ := firstIdxLE_spec _ _ i1 hfi1
    obtain ⟨i2, hle, hfi2⟩ := firstIdxLE_exists t2 _ i1 hlen1 (le_trans hpred1 ht)
    have h49a : i1 ≤ 49 := firstIdx_le_49 radius height delta slope intercept t1 i1 hfi1
    have h49b : i2 ≤ 49 := le_trans hle h49a
    refine ⟨_, _,
      get_ratio_eq_of_firstIdx radius height delta slope intercept t1
        (ne_of_gt hr) i1 hfi1,
      get_ratio_eq_of_firstIdx radius height delta slope intercept t2
        (ne_of_gt hr) i2 hfi2, ?_⟩
    have hsin : Real.sin (theta i2) ≤ Real.sin (theta i1) := by
      rcases eq_or_lt_of_le hle with rfl | hlt
      · exact le_refl _
      · apply le_of_lt
        apply Real.strictMonoOn_sin ⟨?_, theta_le_half_pi h49b⟩
          ⟨?_, theta_le_half_pi h49a⟩ (theta_strict_mono hlt)
        · linarith [theta_nonneg i2, pi_pos]
        · linarith [theta_nonneg i1, pi_pos]
    have harc : Real.arccos (Real.sin (theta i1)) ≤ Real.arccos (Real.sin (theta i2)) := by
      rw [Real.arccos_eq_pi_div_two_sub_arcsin, Real.arccos_eq_pi_div_two_sub_arcsin]
      have := Real.monotone_arcsin hsin
      linarith
    gcongr

/-- Helper: a mapped `Except` is an error exactly when the original is. -/
theorem except_map_error_iff {α β : Type} (f : α → β) (x : Except String α) (e : String) :
    x.map f = .error e ↔ x = .error e := by
  cases x <;> simp [Except.map]

/-- Helper: the only error the coverage computation can produce is the acos
domain error. -/
theorem get_ratio_error_msg (t : ℝ) (p : List ℝ × List ℝ × List ℝ) (r δ : ℝ) (e : String)
    (h : get_ratio_of_perimeter_covered t p r δ = .error e) : e = domain_error_msg := by
  simp only [get_ratio_of_perimeter_covered] at h
  split at h
  · simp at h
  · split at h
    · injection h with h'
      exact h'.symm
    · simp at h

/-- Helper: the harvesting loop never raises the harvest-validation error. -/
theorem runHarvestAux_ne_harvest_error (cov : ℝ → Except String ℝ) (mr pr : ℝ)
    (hcov : ∀ t e, cov t = .error e → e = domain_error_msg) :
    ∀ (tides : List ℝ) (s : SimState),
      runHarvestAux cov mr pr tides s ≠ .error harvest_error_msg := by
  intro tides
  induction tides with
  | nil =>
    intro s hcontra
    rw [runHarvestAux_nil] at hcontra
    simp at hcontra
  | cons t rest ih =>
    intro s
    cases hc : cov t with
    | error e =>
      have he : e = domain_error_msg := hcov t e hc
      subst he
      simp only [runHarvestAux, hc]
      intro hcontra
      injection hcontra with h'
      have : domain_error_msg ≠ harvest_error_msg := by decide
      exact this h'
    | ok c =>
      simp only [runHarvestAux, hc]
      by_cases hp : ⌊s.caught⌋ ≠ 0 ∧ c = 0
      · rw [if_pos hp]
        simp
      · rw [if_neg hp]
        exact ih _

/-- C10: with empty `prev_values`, `run_trap_harvesting` never validates and
never uses `selected_harvest`: for every value the result equals the result
with `selected_harvest = 0`, and the harvest-validation error is never
raised. -/
theorem C10_selected_harvest_ignored_when_empty :
    (∀ (tides : List ℝ) (sh r h sl δ : ℝ) (cp : Bool),
      run_trap_harvesting tides none sh r h sl δ cp
        = run_trap_harvesting tides none 0 r h sl δ cp)
    ∧ (∀ (tides : List ℝ) (sh r h sl δ : ℝ) (cp : Bool),
      run_trap_harvesting tides none sh r h sl δ cp ≠ .error harvest_error_msg) := by
  constructor
  · intro tides sh r h sl δ cp
    rfl
  · intro tides sh r h sl δ cp
    rw [run_trap_harvesting_none]
    intro hcontra
    rw [except_map_error_iff] at hcontra
    exact runHarvestAux_ne_harvest_error _ _ _
      (fun t e he => get_ratio_error_msg _ _ _ _ _ he) tides _ hcontra

/-- Helper for C3: when every tide level in the list has positive coverage,
the harvesting loop coincides with `run_trap`'s loop at height adjustment 1
and finishes with `completed = true`. -/
theorem harvestAux_eq_trapAux_of_pos (cov : ℝ → Except String ℝ) (mr pr mf : ℝ)
    (cp : Bool) :
    ∀ (tides : List ℝ) (s : SimState),
      (∀ t ∈ tides, ∃ c, cov t = .ok c ∧ 0 < c) →
      runHarvestAux cov mr pr tides s
        = (runTrapAux cov mr pr 1 mf cp tides s).map (fun s1 => (s1, true)) := by
  intro tides
  induction tides with
  | nil => intro s _; rfl
  | cons t rest ih =>
    intro s hall
    obtain ⟨c, hc, hcpos⟩ := hall t (List.mem_cons_self t rest)
    have hrest : ∀ t' ∈ rest, ∃ c', cov t' = .ok c' ∧ 0 < c' :=
      fun t' ht' => hall t' (List.mem_cons_of_mem t ht')
    rw [runHarvestAux_step cov mr pr t rest s
        ⟨s.caught - s.caught * c * mr * pr + s.free * c * mr * pr,
         s.free + s.caught * c * mr * pr - s.free * c * mr * pr,
         s.total ++ [s.total.getLastD 0],
         s.in_trap ++ [s.caught - s.caught * c * mr * pr + s.free * c * mr * pr],
         s.out_trap ++ [s.free + s.caught * c * mr * pr - s.free * c * mr * pr],
         s.catches⟩ c hc (by rintro ⟨-, rfl⟩; exact lt_irrefl 0 hcpos)
        rfl rfl rfl rfl rfl rfl]
    rw [runTrapAux_step_pos cov mr pr 1 mf cp t rest s
        ⟨s.caught - s.caught * c * mr * pr + s.free * c * mr * pr,
         s.free + s.caught * c * mr * pr - s.free * c * mr * pr,
         s.total ++ [s.total.getLastD 0],
         s.in_trap ++ [s.caught - s.caught * c * mr * pr + s.free * c * mr * pr],
         s.out_trap ++ [s.free + s.caught * c * mr * pr - s.free * c * mr * pr],
         s.catches⟩ c hc hcpos (by simp) (by simp) rfl (by simp) (by simp) rfl]
    exact ih _ hrest

/-- C3 (amended): with `height = 4` (unit height adjustment) and a tide
series on which the coverage stays positive (no closure), a single
`run_trap_harvesting` call from empty `prev_values` reproduces `run_trap`'s
four histories hour for hour and reports `completed = true`; in general the
claimed equivalence fails (see the counterexample). -/
theorem C3_amended_equiv (tides : List ℝ) (r sl δ sh : ℝ) (cp : Bool)
    (hcov : ∀ t ∈ tides, ∃ c,
      get_ratio_of_perimeter_covered t (get_perimeter r 4 δ sl 6) r 5 = .ok c ∧ 0 < c) :
    run_trap_harvesting tides none sh r 4 sl δ cp
      = (run_trap tides r 4 sl δ cp).map (fun r4 => (r4, true)) := by
  rw [run_trap_harvesting_none, run_trap_unfold]
  rw [show (1 : ℝ) / min 1 (4 / 4) = 1 by norm_num]
  rw [harvestAux_eq_trapAux_of_pos _ 0.025 ((π * r) / (π * 25)) 1000 cp tides _ hcov]
  cases runTrapAux (fun level => get_ratio_of_perimeter_covered level
      (get_perimeter r 4 δ sl 6) r 5) 0.025 ((π * r) / (π * 25)) 1 1000 cp tides
      ⟨0, 1000, [0], [0], [1000], []⟩ with
  | error e => rfl
  | ok s1 => rfl

/-- Witness for C3 (amended) on the one-hour tide series `[100]`. -/
theorem C3_amended_equiv_witness :
    (∀ t ∈ ([100] : List ℝ), ∃ c,
      get_ratio_of_perimeter_covered t (get_perimeter 25 4 5 0.17 6) 25 5 = .ok c ∧ 0 < c)
    ∧ run_trap_harvesting [100] none 37 25 4 0.17 5 true
        = (run_trap [100] 25 4 0.17 5 true).map (fun r4 => (r4, true)) := by
  have hcov : ∀ t ∈ ([100] : List ℝ), ∃ c,
      get_ratio_of_perimeter_covered t (get_perimeter 25 4 5 0.17 6) 25 5
        = .ok c ∧ 0 < c := by
    intro t ht
    simp only [List.mem_singleton] at ht
    subst ht
    exact ⟨1, cov_one 25 4 5 0.17 6 100 (by norm_num) (by norm_num), one_pos⟩
  exact ⟨hcov, C3_amended_equiv [100] 25 0.17 5 37 true hcov⟩

/-- C3 (counterexample): on the tide series `[100, -100]` with the default
configuration, `run_trap` harvests `floor(caught) = 25` fish at the closure
(cumulative history `[0, 0, 25]`), while the repeated
`run_trap_harvesting` protocol with `selected_harvest = 0` pauses at the
closure and then records a zero harvest (cumulative history `[0, 0, 0]`): the
trajectories differ, refuting the claimed equivalence. -/
theorem C3_counterexample :
    (run_trap [100, -100] 25 2 0.17 5 true).map (fun r4 => r4.1) = .ok [0, 0, 25]
    ∧ run_trap_harvesting [100, -100] none 0 25 2 0.17 5 true
        = .ok (([0, 0], [0, 25], [1000, 975], []), false)
    ∧ (run_trap_harvesting [100, -100] (some ([0, 0], [0, 25], [1000, 975], []))
          0 25 2 0.17 5 true).map (fun rb => rb.1.1) = .ok [0, 0, 0]
    ∧ ([0, 0, 0] : List ℝ) ≠ [0, 0, 25] := by
  have hc1 : get_ratio_of_perimeter_covered 100 (get_perimeter 25 2 5 0.17 6) 25 5
      = .ok 1 := cov_one 25 2 5 0.17 6 100 (by norm_num) (by norm_num)
  have hc0 : get_ratio_of_perimeter_covered (-100) (get_perimeter 25 2 5 0.17 6) 25 5
      = .ok 0 := cov_zero 25 2 5 0.17 6 (-100) (by norm_num) (by norm_num) (by norm_num)
  refine ⟨?_, ?_, ?_, by simp⟩
  · rw [run_trap_unfold]
    rw [show (π * 25) / (π * 25) = (1:ℝ) from div_self (ne_of_gt (by positivity))]
    rw [show (1 : ℝ) / min 1 (2 / 4) = 2 by
      rw [min_eq_right (by norm_num : (2:ℝ)/4 ≤ 1)]; norm_num]
    rw [runTrapAux_step_pos _ 0.025 1 2 1000 true 100 [-100]
        ⟨0, 1000, [0], [0], [1000], []⟩ ⟨25, 975, [0, 0], [0, 25], [1000, 975], []⟩ 1 hc1
        one_pos (by norm_num) (by norm_num) (by simp) (by norm_num) (by norm_num) rfl]
    rw [runTrapAux_step_closed _ 0.025 1 2 1000 true (-100) []
        ⟨25, 975, [0, 0], [0, 25], [1000, 975], []⟩
        ⟨0, 1000, [0, 0, 25], [0, 25, 0], [1000, 975, 1000], [25]⟩ 0 25 975 25 hc0
        (by norm_num) (by norm_num) (by norm_num) (by simp)
        rfl (by norm_num) (by norm_num) (by norm_num) (by norm_num) (by norm_num),
      runTrapAux_nil]
    rfl
  · rw [run_trap_harvesting_none]
    rw [show (π * 25) / (π * 25) = (1:ℝ) from div_self (ne_of_gt (by positivity))]
    rw [runHarvestAux_step _ 0.025 1 100 [-100] ⟨0, 1000, [0], [0], [1000], []⟩
        ⟨25, 975, [0, 0], [0, 25], [1000, 975], []⟩ 1 hc1 (by simp)
        (by norm_num) (by norm_num) (by simp) (by norm_num) (by norm_num) rfl]
    rw [runHarvestAux_pause _ 0.025 1 (-100) []
        ⟨25, 975, [0, 0], [0, 25], [1000, 975], []⟩ 0 hc0 (by simp) rfl]
    rfl
  · rw [run_trap_harvesting_some_ok [100, -100] [0, 0] [0, 25] [1000, 975] [] 0 25 2 0.17 5
        true 975 25 (-100) 0 0 1000
        ⟨0, 1000, [0, 0, 0], [0, 25, 0], [1000, 975, 1000], [0]⟩
        rfl rfl (by norm_num [pyInt]) rfl hc0 rfl (by norm_num) rfl rfl
        (by norm_num [pyInt]) (by norm_num) (by norm_num) (by norm_num [pyInt])]
    rfl

/-- Helper for C9: under coverage in `[0, 1]` and small enough exchange
coefficients, `run_trap`'s loop keeps both populations non-negative and the
cumulative-harvest history monotone. -/
theorem runTrapAux_total_chain (cov : ℝ → Except String ℝ) (mr pr ha mf : ℝ) (cp : Bool)
    (hcov : ∀ t c, cov t = .ok c → 0 ≤ c ∧ c ≤ 1)
    (hmp1 : 0 ≤ mr * pr) (hmp2 : mr * pr ≤ 1)
    (hmph1 : 0 ≤ mr * pr * ha) (hmph2 : mr * pr * ha ≤ 1) (hmf : 0 ≤ mf) :
    ∀ (tides : List ℝ) (s : SimState), 0 ≤ s.caught → 0 ≤ s.free →
      s.total.Chain' (· ≤ ·) →
      ∀ s', runTrapAux cov mr pr ha mf cp tides s = .ok s' →
        s'.total.Chain' (· ≤ ·) := by
  intro tides
  induction tides with
  | nil =>
    intro s hsc hsf hch s' hrun
    rw [runTrapAux_nil] at hrun
    injection hrun with h
    exact h ▸ hch
  | cons t rest ih =>
    intro s hsc hsf hch s' hrun
    cases hcv : cov t with
    | error e =>
      simp only [runTrapAux, hcv] at hrun
      exact Except.noConfusion hrun
    | ok c =>
      obtain ⟨hc0, hc1⟩ := hcov t c hcv
      have hb1 : c * (mr * pr * ha) ≤ 1 := by nlinarith
      have hb2 : c * (mr * pr) ≤ 1 := by nlinarith
      have hcaught1 : 0 ≤ s.caught - s.caught * c * mr * pr * ha + s.free * c * mr * pr := by
        have e1 : s.caught * c * mr * pr * ha = s.caught * (c * (mr * pr * ha)) := by ring
        have e2 : s.free * c * mr * pr = s.free * (c * (mr * pr)) := by ring
        have k1 : s.caught * (c * (mr * pr * ha)) ≤ s.caught * 1 :=
          mul_le_mul_of_nonneg_left hb1 hsc
        have k2 : 0 ≤ s.free * (c * (mr * pr)) :=
          mul_nonneg hsf (mul_nonneg hc0 hmp1)
        rw [e1, e2]
        linarith
      have hfree1 : 0 ≤ s.free + s.caught * c * mr * pr * ha - s.free * c * mr * pr := by
        have e1 : s.caught * c * mr * pr * ha = s.caught * (c * (mr * pr * ha)) := by ring
        have e2 : s.free * c * mr * pr = s.free * (c * (mr * pr)) := by ring
        have k1 : s.free * (c * (mr * pr)) ≤ s.free * 1 :=
          mul_le_mul_of_nonneg_left hb2 hsf
        have k2 : 0 ≤ s.caught * (c * (mr * pr * ha)) :=
          mul_nonneg hsc (mul_nonneg hc0 hmph1)
        rw [e1, e2]
        linarith
      by_cases hpos : 0 < c
      · rw [runTrapAux_step_pos cov mr pr ha mf cp t rest s ⟨_, _, _, _, _, _⟩ c hcv hpos
            rfl rfl rfl rfl rfl rfl] at hrun
        exact ih _ hcaught1 hfree1
          (chain_le_append_last _ _ hch (le_refl _)) s' hrun
      · rw [runTrapAux_step_closed cov mr pr ha mf cp t rest s ⟨_, _, _, _, _, _⟩ c _ _ _
            hcv hpos rfl rfl rfl rfl rfl rfl rfl rfl rfl] at hrun
        have hfl : (0:ℤ) ≤ ⌊s.caught - s.caught * c * mr * pr * ha + s.free * c * mr * pr⌋ :=
          Int.floor_nonneg.mpr hcaught1
        refine ih _ (le_refl 0) ?_ ?_ s' hrun
        · show (0:ℝ) ≤ if cp then mf
            else (s.free + s.caught * c * mr * pr * ha - s.free * c * mr * pr)
              + ((s.caught - s.caught * c * mr * pr * ha + s.free * c * mr * pr)
                - ((⌊s.caught - s.caught * c * mr * pr * ha + s.free * c * mr * pr⌋ : ℤ) : ℝ))
          by_cases hcp : cp = true
          · rw [if_pos hcp]
            exact hmf
          · rw [if_neg hcp]
            have := Int.floor_le
              (s.caught - s.caught * c * mr * pr * ha + s.free * c * mr * pr)
            linarith
        · apply chain_le_append_last _ _ hch
          have : (0:ℝ) ≤
              (⌊s.caught - s.caught * c * mr * pr * ha + s.free * c * mr * pr⌋ : ℝ) := by
            exact_mod_cast hfl
          linarith

/-- Helper for C9: the harvesting loop preserves monotonicity of the
cumulative-harvest history unconditionally, since each hour it only repeats
the last entry. -/
theorem runHarvestAux_total_chain (cov : ℝ → Except String ℝ) (mr pr : ℝ) :
    ∀ (tides : List ℝ) (s : SimState), s.total.Chain' (· ≤ ·) →
      ∀ p, runHarvestAux cov mr pr tides s = .ok p → p.1.total.Chain' (· ≤ ·) := by
  intro tides
  induction tides with
  | nil =>
    intro s hch p hrun
    rw [runHarvestAux_nil] at hrun
    injection hrun with h
    exact h ▸ hch
  | cons t rest ih =>
    intro s hch p hrun
    cases hcv : cov t with
    | error e =>
      simp only [runHarvestAux, hcv] at hrun
      exact Except.noConfusion hrun
    | ok c =>
      simp only [runHarvestAux, hcv] at hrun
      by_cases hp : ⌊s.caught⌋ ≠ 0 ∧ c = 0
      · rw [if_pos hp] at hrun
        injection hrun with h
        exact h ▸ hch
      · rw [if_neg hp] at hrun
        exact ih _ (chain_le_append_last _ _ hch (le_refl _)) p hrun

/-- C9 (amended): for configurations with the default `delta = 5` (matching
the coverage computation's default, so the coverage stays within `[0, 1]`),
positive radius and height, and an exchange coefficient at most one
(`radius ≤ 1000 * min(1, height/4)`, satisfied in particular by the
defaults), the cumulative harvest history of `run_trap` is monotonically
non-decreasing, and a successful `run_trap_harvesting` extension of a
monotone history is again monotone; outside these conditions the history can
decrease (see the counterexample; a mismatched `delta` can push the coverage
above 1 and break the bound as well). -/
theorem C9_amended_monotone (tides : List ℝ) (radius height slope : ℝ) (cp : Bool)
    (hr : 0 < radius) (hh : 0 < height)
    (hbound : radius ≤ 1000 * min 1 (height / 4)) :
    HarvestMonotoneSpec tides radius height slope cp := by
  unfold HarvestMonotoneSpec
  have hmin_pos : 0 < min 1 (height / 4) := lt_min one_pos (by positivity)
  have hpr : (π * radius) / (π * 25) = radius / 25 :=
    mul_div_mul_left radius 25 Real.pi_ne_zero
  have hmin_le : min 1 (height / 4) ≤ 1 := min_le_left _ _
  have hmp1 : 0 ≤ (0.025:ℝ) * ((π * radius) / (π * 25)) := by
    rw [hpr]
    positivity
  have hmp2 : (0.025:ℝ) * ((π * radius) / (π * 25)) ≤ 1 := by
    rw [hpr]
    have he : (0.025:ℝ) * (radius / 25) = radius / 1000 := by ring
    rw [he, div_le_one (by norm_num : (0:ℝ) < 1000)]
    nlinarith
  have hmph1 : 0 ≤ (0.025:ℝ) * ((π * radius) / (π * 25)) * (1 / min 1 (height / 4)) := by
    rw [hpr]
    positivity
  have hmph2 : (0.025:ℝ) * ((π * radius) / (π * 25)) * (1 / min 1 (height / 4)) ≤ 1 := by
    rw [hpr]
    have he : (0.025:ℝ) * (radius / 25) * (1 / min 1 (height / 4))
        = radius / (1000 * min 1 (height / 4)) := by
      field_simp
      ring
    rw [he, div_le_one (by positivity)]
    exact hbound
  have hcov : ∀ t c, get_ratio_of_perimeter_covered t
      (get_perimeter radius height 5 slope 6) radius 5 = .ok c → 0 ≤ c ∧ c ≤ 1 := by
    intro t c hc
    obtain ⟨c', hc', h0, h1⟩ := get_ratio_matched_ok radius height 5 slope 6 t (ne_of_gt hr)
    rw [hc] at hc'
    injection hc' with h
    exact h ▸ ⟨h0, h1⟩
  constructor
  · intro res hres
    rw [run_trap_unfold] at hres
    cases haux : runTrapAux (fun level => get_ratio_of_perimeter_covered level
        (get_perimeter radius height 5 slope 6) radius 5) 0.025
        ((π * radius) / (π * 25)) (1 / min 1 (height / 4)) 1000 cp tides
        ⟨0, 1000, [0], [0], [1000], []⟩ with
    | error e =>
      rw [haux] at hres
      simp [Except.map] at hres
    | ok s' =>
      rw [haux] at hres
      have hch := runTrapAux_total_chain _ _ _ _ _ _ hcov hmp1 hmp2 hmph1 hmph2
        (by norm_num) tides ⟨0, 1000, [0], [0], [1000], []⟩ (le_refl 0) (by norm_num)
        (List.chain'_singleton 0) s' haux
      injection hres with h
      rw [← h]
      exact hch
  · intro prev sh res b hchain hres
    obtain ⟨total, in_t, out_t, cs⟩ := prev
    cases hout : out_t.getLast? with
    | none =>
      rw [run_trap_harvesting_err_out tides total in_t out_t cs sh radius height slope 5
          cp hout] at hres
      exact Except.noConfusion hres
    | some cf =>
      cases hin : in_t.getLast? with
      | none =>
        rw [run_trap_harvesting_err_in tides total in_t out_t cs sh radius height slope 5
            cf cp hout hin] at hres
        exact Except.noConfusion hres
      | some cc =>
        by_cases hval : ((pyInt sh : ℝ) > cc ∨ pyInt sh < 0)
        · rw [run_trap_harvesting_some_err tides total in_t out_t cs sh radius height slope
              5 cf cc cp hout hin hval] at hres
          exact Except.noConfusion hres
        · cases htide : tides[in_t.length - 1]? with
          | none =>
            rw [run_trap_harvesting_err_tide tides total in_t out_t cs sh radius height
                slope 5 cf cc cp hout hin hval htide] at hres
            exact Except.noConfusion hres
          | some lv =>
            obtain ⟨c, hc, -, -⟩ := get_ratio_matched_ok radius height 5 slope 6 lv
              (ne_of_gt hr)
            cases htot : total.getLast? with
            | none =>
              rw [run_trap_harvesting_err_total tides total in_t out_t cs sh radius height
                  slope 5 cf cc lv c cp hout hin hval htide hc htot] at hres
              exact Except.noConfusion hres
            | some lt =>
              rw [run_trap_harvesting_some_ok tides total in_t out_t cs sh radius height
                  slope 5 cp cf cc lv lt c _ ⟨_, _, _, _, _, _⟩ hout hin hval htide hc htot
                  rfl rfl rfl rfl rfl rfl rfl] at hres
              push_neg at hval
              have hsh0 : (0:ℝ) ≤ (pyInt sh : ℝ) := by exact_mod_cast hval.2
              cases haux : runHarvestAux (fun level => get_ratio_of_perimeter_covered level
                  (get_perimeter radius height 5 slope 6) radius 5) 0.025
                  ((π * radius) / (π * 25)) (tides.drop ((in_t ++ [0]).length - 1))
                  ⟨0, _, total ++ [lt + (pyInt sh : ℝ)], in_t ++ [0], _, _⟩ with
              | error e =>
                rw [haux] at hres
                simp [Except.map] at hres
              | ok p =>
                rw [haux] at hres
                have hlast : total.getLastD 0 = lt := by
                  rw [List.getLastD_eq_getLast?, htot]
                  rfl
                have hch1 : (total ++ [lt + (pyInt sh : ℝ)]).Chain' (· ≤ ·) := by
                  apply chain_le_append_last _ _ hchain
                  rw [hlast]
                  linarith
                have hch := runHarvestAux_total_chain _ _ _ _ _ hch1 p haux
                injection hres with h
                have h1 : p.1.total = res.1 := congrArg (fun q => q.1.1) h
                rw [← h1]
                exact hch

/-- Witness for C9 (amended) at the default-like configuration
`radius = 25`, `height = 4` on the empty tide series. -/
theorem C9_amended_monotone_witness :
    (0:ℝ) < 25 ∧ (0:ℝ) < 4 ∧ (25:ℝ) ≤ 1000 * min 1 (4 / 4) ∧
    HarvestMonotoneSpec [] 25 4 0.17 true :=
  ⟨by norm_num, by norm_num, by norm_num,
    C9_amended_monotone [] 25 4 0.17 true (by norm_num) (by norm_num) (by norm_num)⟩

/-- C9 (counterexample): with `height = 1/100` the height adjustment is 400,
the caught population goes negative, and the closure harvest appends
`floor(-200.625) = -201`: the cumulative history `[0, 0, 0, -201]` decreases,
refuting monotonicity for every configuration. -/
theorem C9_counterexample :
    (run_trap [100, 100, -100] 25 (1 / 100) 0.17 5 true).map (fun r4 => r4.1)
      = .ok [0, 0, 0, -201]
    ∧ ¬ ([0, 0, 0, -201] : List ℝ).Chain' (· ≤ ·) := by
  have hc1 : get_ratio_of_perimeter_covered 100 (get_perimeter 25 (1 / 100) 5 0.17 6) 25 5
      = .ok 1 := cov_one 25 (1 / 100) 5 0.17 6 100 (by norm_num) (by norm_num)
  have hc0 : get_ratio_of_perimeter_covered (-100)
      (get_perimeter 25 (1 / 100) 5 0.17 6) 25 5
      = .ok 0 := cov_zero 25 (1 / 100) 5 0.17 6 (-100) (by norm_num) (by norm_num)
      (by norm_num)
  constructor
  · rw [run_trap_unfold]
    rw [show (π * 25) / (π * 25) = (1:ℝ) from div_self (ne_of_gt (by positivity))]
    rw [show (1 : ℝ) / min 1 ((1 / 100) / 4) = 400 by
      rw [min_eq_right (by norm_num : ((1:ℝ) / 100) / 4 ≤ 1)]
      norm_num]
    rw [runTrapAux_step_pos _ 0.025 1 400 1000 true 100 [100, -100]
        ⟨0, 1000, [0], [0], [1000], []⟩ ⟨25, 975, [0, 0], [0, 25], [1000, 975], []⟩ 1 hc1
        one_pos (by norm_num) (by norm_num) (by simp) (by norm_num) (by norm_num) rfl]
    rw [runTrapAux_step_pos _ 0.025 1 400 1000 true 100 [-100]
        ⟨25, 975, [0, 0], [0, 25], [1000, 975], []⟩
        ⟨-200.625, 1200.625, [0, 0, 0], [0, 25, -200.625], [1000, 975, 1200.625], []⟩ 1 hc1
        one_pos (by norm_num) (by norm_num) (by simp) (by norm_num) (by norm_num) rfl]
    rw [runTrapAux_step_closed _ 0.025 1 400 1000 true (-100) []
        ⟨-200.625, 1200.625, [0, 0, 0], [0, 25, -200.625], [1000, 975, 1200.625], []⟩
        ⟨0, 1000, [0, 0, 0, -201], [0, 25, -200.625, 0], [1000, 975, 1200.625, 1000], [-201]⟩
        0 (-200.625) 1200.625 (-201) hc0 (by norm_num) (by norm_num) (by norm_num)
        (Int.floor_eq_iff.mpr ⟨by push_cast; norm_num, by push_cast; norm_num⟩)
        rfl (by norm_num) (by push_cast; norm_num) (by norm_num)
        (by norm_num) (by push_cast; norm_num),
      runTrapAux_nil]
    rfl
  · intro hch
    rw [List.chain'_cons, List.chain'_cons, List.chain'_cons] at hch
    have := hch.2.2.1
    norm_num at this

/-- Witness for C7 at `radius = 1`, tide levels `0 ≤ 1`. -/
theorem C7_coverage_monotone_witness :
    (0:ℝ) < 1 ∧ (0:ℝ) ≤ 1 ∧
    ∃ v1 v2,
      get_ratio_of_perimeter_covered 0 (get_perimeter 1 0 0 0 0) 1 0 = .ok v1 ∧
      get_ratio_of_perimeter_covered 1 (get_perimeter 1 0 0 0 0) 1 0 = .ok v2 ∧
      v1 ≤ v2 :=
  ⟨by norm_num, by norm_num, C7_coverage_monotone 1 0 0 0 0 0 1 (by norm_num) (by norm_num)⟩

end FishTrap
